import Mathlib

/-!
# Verification of the index-decimal-wager betting application

Shallow embedding (in exact rational arithmetic) of the settlement,
wallet and scheduler logic of the repository:

* `clientIsWin` / `placeBetOld` — the older client revision of
  `BettingInterface` (`src/unnamed/part_000`), which settles a bet at
  placement time from the currently displayed index value.
* `serverIsWin` / `betSettlementTrigger` — the server-side settlement
  function (`src/unnamed/part_007`, the `bet-settlement-trigger` edge
  function).
* `update_wallet_balance` — the stored procedure of migration
  `20250717172130-.sql` (lines 102–146).
* `schedulerLoop` / `schedulerRun` — the `bet-scheduler` edge function
  (`src/supabase/functions/bet-scheduler/index.ts`).
* `verifyPayment` — the `verify-payment` edge function.

JavaScript numbers are modelled as rationals (the idealised exact
reading of the arithmetic in the source); `Math.floor` is `Int.floor`,
JS `x % 1` on a non-negative number is `x - ⌊x⌋`, JS integer `%` and
`Math.floor (a / b)` on integers are `Int.emod` and `Int.fdiv`
(which agree with the JS operators on the non-negative operands that
occur in this program).
-/

namespace IDW

/-- The three bet types accepted by the `bets.bet_type` CHECK constraint. -/
inductive BetType
  | andar
  | bahar
  | pair
  deriving DecidableEq, Repr

/-- JS `Math.floor((v % 1) * 100)` for a non-negative `v`
(part_000, line 162): the two-digit decimal part. -/
def decimalPart2 (v : ℚ) : ℤ := ⌊(v - ⌊v⌋) * 100⌋

/-- JS `Math.floor((v % 1) * 10)` for a non-negative `v`
(part_007, line 68): the first decimal digit. -/
def decimalPart1 (v : ℚ) : ℤ := ⌊(v - ⌊v⌋) * 10⌋

/-- Win/loss determination of the older client revision
(`src/unnamed/part_000`, lines 161–171, inside `placeBet`). -/
def clientIsWin (betType : BetType) (number : ℤ) (currentValue : ℚ) : Bool :=
  let decimalPart := decimalPart2 currentValue
  match betType with
  | .andar => Int.fdiv decimalPart 10 == Int.fdiv number 10
  | .bahar => decimalPart % 10 == number % 10
  | .pair => decimalPart == number

/-- Win/loss determination of the server-side settlement function
(`src/unnamed/part_007`, lines 66–96): `decimalPart` there is the single
first decimal digit, and the `pair` case uses
`Math.floor(stockValue) % 100` — the last two digits of the *integer*
part. -/
def serverIsWin (betType : BetType) (betNumber : ℤ) (stockValue : ℚ) : Bool :=
  let decimalPart := decimalPart1 stockValue
  match betType with
  | .andar => decimalPart == betNumber
  | .bahar => decimalPart == betNumber
  | .pair => ⌊stockValue⌋ % 100 == betNumber

/-- First decimal digit of a non-negative value, as the spec reads it. -/
def firstDecimalDigit (v : ℚ) : ℤ := ⌊(v - ⌊v⌋) * 10⌋

/-- Second decimal digit of a non-negative value, as the spec reads it. -/
def secondDecimalDigit (v : ℚ) : ℤ := decimalPart2 v % 10

/-- The settlement rule exactly as the specification sentence states it
(claim C2): andar matches the first decimal digit, bahar the second,
pair the two-digit decimal part.  This is the spec-side definition, to
be compared with `clientIsWin` and `serverIsWin`. -/
def specIsWin (betType : BetType) (number : ℤ) (v : ℚ) : Bool :=
  match betType with
  | .andar => firstDecimalDigit v == number
  | .bahar => secondDecimalDigit v == number
  | .pair => decimalPart2 v == number

/-! ## Wallet database model

Migration `20250717172130-.sql`.  A wallet row has a UUID primary key
`id` and a unique `user_id`; a transaction row records user, wallet,
type, amount, description and reference (`created_at`/`updated_at`
timestamp columns carry no logic and are not modelled).  UUIDs are
modelled as strings. -/

structure Wallet where
  id : String
  userId : String
  balance : ℚ
  deriving DecidableEq, Repr

structure Txn where
  userId : String
  walletId : String
  ttype : String
  amount : ℚ
  description : Option String
  referenceId : Option String
  deriving DecidableEq, Repr

structure DbState where
  wallets : List Wallet
  txns : List Txn
  deriving DecidableEq, Repr

/-- The stored procedure `public.update_wallet_balance` (migration
`20250717172130-.sql`, lines 102–146).  `RAISE EXCEPTION` aborts the
whole call and rolls everything back, which the `Except` error arm
models (no state escapes an error). -/
def update_wallet_balance (st : DbState) (p_user_id : String) (p_amount : ℚ)
    (p_type : String) (p_description : Option String) (p_reference_id : Option String) :
    Except String DbState :=
  match st.wallets.find? (fun w => w.userId == p_user_id) with
  | none => .error "Wallet not found for user"
  | some w =>
    let newBalance : ℚ :=
      if p_type == "credit" || p_type == "bet_win" then w.balance + p_amount
      else w.balance - p_amount
    if ¬(p_type == "credit" || p_type == "bet_win") ∧ newBalance < 0 then
      .error "Insufficient wallet balance"
    else
      .ok { wallets := st.wallets.map
              (fun w' => if w'.id == w.id then { w' with balance := newBalance } else w'),
            txns := st.txns ++
              [{ userId := p_user_id, walletId := w.id, ttype := p_type,
                 amount := p_amount, description := p_description,
                 referenceId := p_reference_id }] }

/-- A `supabase.rpc('update_wallet_balance', …)` call as the callers see
it: a raised exception comes back as an error value and the database is
left untouched; otherwise the new database state is committed. -/
def rpcUpdateWalletBalance (st : DbState) (p_user_id : String) (p_amount : ℚ)
    (p_type : String) (p_description : Option String) (p_reference_id : Option String) :
    Option String × DbState :=
  match update_wallet_balance st p_user_id p_amount p_type p_description p_reference_id with
  | .ok st' => (none, st')
  | .error e => (some e, st)

/-! ## Bets, stock indices and the settlement trigger

Table `public.bets` (first migration, plus the `status` /
`settlement_time` columns added by the later migration, defaulting to
`'pending'` and `NULL`).  Timestamps are modelled as integers. -/

structure Bet where
  id : String
  userId : String
  indexName : String
  amount : ℚ
  betType : BetType
  betNumber : ℤ
  actualValue : Option ℚ
  actualDecimal : Option ℤ
  isWin : Bool
  winAmount : ℚ
  settlementTime : Option ℤ
  status : String
  deriving DecidableEq, Repr

/-- Whole backend state: the `bets` table plus the wallet database. -/
structure SysState where
  bets : List Bet
  db : DbState
  deriving DecidableEq, Repr

structure StockIndexCfg where
  name : String
  timezone : String
  marketOpen : ℚ
  marketClose : ℚ
  deriving DecidableEq, Repr

/-- The `STOCK_INDICES` table shared by the client revisions and the
settlement trigger (`src/unnamed/part_007`, lines 16–23). -/
def STOCK_INDICES : List StockIndexCfg :=
  [ { name := "Taiwan", timezone := "Asia/Taipei", marketOpen := 9, marketClose := 13.5 },
    { name := "Kospi", timezone := "Asia/Seoul", marketOpen := 9, marketClose := 15.5 },
    { name := "Hangseng", timezone := "Asia/Hong_Kong", marketOpen := 9.5, marketClose := 16 },
    { name := "Sensex", timezone := "Asia/Kolkata", marketOpen := 9.25, marketClose := 15.5 },
    { name := "Dax", timezone := "Europe/Berlin", marketOpen := 9, marketClose := 17.5 },
    { name := "Dow Jones", timezone := "America/New_York", marketOpen := 9.5, marketClose := 16 } ]

/-- The HTTP body returned by the `bet-settlement-trigger` function:
status 200 with a "scheduled" message, status 200 with the settlement
result, or status 400 with an error message. -/
inductive TriggerResult
  | scheduled (settlementTime : ℤ)
  | settled (betId : String) (actualValue : ℚ) (decimalPart : ℤ) (isWin : Bool)
  | errorResp (msg : String)
  deriving DecidableEq, Repr

/-- The `bet-settlement-trigger` serve handler (`src/unnamed/part_007`,
lines 25–175).  `stockValue` stands for the random value the handler
draws at line 67; `now` is the handler's current time.  Note the handler
marks the bet `settled` and only then credits the wallet, and a failed
wallet update is merely logged (lines 126–128), not raised. -/
def betSettlementTrigger (st : SysState) (betId : String) (settlementTime : ℤ)
    (indexName : String) (now : ℤ) (stockValue : ℚ) : TriggerResult × SysState :=
  match STOCK_INDICES.find? (fun idx => idx.name == indexName) with
  | none => (.errorResp "Invalid index name", st)
  | some _ =>
    if settlementTime ≤ now then
      match st.bets.find? (fun b => b.id == betId) with
      | none => (.errorResp "Bet not found", st)
      | some bet =>
        let decimalPart := decimalPart1 stockValue
        let isWin := serverIsWin bet.betType bet.betNumber stockValue
        let winAmount : ℚ := if isWin then bet.amount * (95 / 100) else 0
        let bets' := st.bets.map fun b =>
          if b.id == betId then
            { b with actualValue := some stockValue, actualDecimal := some decimalPart,
                     isWin := isWin, winAmount := winAmount, status := "settled" }
          else b
        let db' :=
          if isWin then
            (rpcUpdateWalletBalance st.db bet.userId winAmount "bet_win"
              (some ("Winnings from " ++ bet.indexName ++ " bet")) (some betId)).2
          else st.db
        (.settled betId stockValue decimalPart isWin, { bets := bets', db := db' })
    else
      (.scheduled settlementTime, st)

/-! ## The bet-scheduler function -/

/-- One element of the `settlementResults` array built by the scheduler
loop (`src/supabase/functions/bet-scheduler/index.ts`, lines 34–67). -/
structure SchedEntry where
  betId : String
  success : Bool
  deriving DecidableEq, Repr

/-- Outcome of one `fetch` of the settlement trigger as the scheduler
sees it: an HTTP response with its `ok` flag and parsed body, or a
thrown network error (the `catch` arm). -/
inductive CallOutcome
  | resp (ok : Bool) (body : TriggerResult)
  | netErr (msg : String)
  deriving DecidableEq, Repr

/-- The scheduler's `for (const bet of pendingBets)` loop: one call per
bet, a result entry pushed whether the call succeeds or throws, and the
loop always continues with the rest of the list. -/
def schedulerLoop (call : SysState → Bet → CallOutcome × SysState) :
    SysState → List Bet → List SchedEntry × SysState
  | st, [] => ([], st)
  | st, b :: rest =>
    let (out, st1) := call st b
    let entry : SchedEntry :=
      match out with
      | .resp ok _ => { betId := b.id, success := ok }
      | .netErr _ => { betId := b.id, success := false }
    let (entries, st2) := schedulerLoop call st1 rest
    (entry :: entries, st2)

/-- The scheduler's selection query:
`.eq('status', 'pending').lte('settlement_time', now)` — SQL `<=`
excludes `NULL` settlement times. -/
def dueBets (st : SysState) (now : ℤ) : List Bet :=
  st.bets.filter fun b => b.status == "pending" && b.settlementTime.any (fun t => t ≤ now)

/-- The scheduler's JSON response body. -/
structure SchedResponse where
  success : Bool
  settledBets : ℕ
  results : List SchedEntry
  deriving DecidableEq, Repr

/-- The `bet-scheduler` serve handler
(`src/supabase/functions/bet-scheduler/index.ts`, lines 22–79),
parameterised by the behaviour `call` of the settlement-trigger
endpoint. -/
def schedulerRun (call : SysState → Bet → CallOutcome × SysState)
    (st : SysState) (now : ℤ) : SchedResponse × SysState :=
  let due := dueBets st now
  let (entries, st') := schedulerLoop call st due
  ({ success := true, settledBets := entries.length, results := entries }, st')

/-- The scheduler's actual call to the settlement trigger (lines 40–51
of the scheduler): it forwards the bet's id, stored settlement time and
index name; the trigger responds with status 200 (`ok`) except on its
error path (status 400).  A `NULL` settlement time would serialise to
epoch (`Option.getD 0`); `rand` supplies the random stock value the
trigger draws for the bet. -/
def triggerCall (now : ℤ) (rand : String → ℚ) :
    SysState → Bet → CallOutcome × SysState := fun st b =>
  let (r, st') :=
    betSettlementTrigger st b.id (b.settlementTime.getD 0) b.indexName now (rand b.id)
  (.resp (match r with | .errorResp _ => false | _ => true) r, st')

/-! ## The two client revisions -/

/-- `placeBet` of the current `BettingInterface` revision
(`src/src/components/BettingInterface.tsx`, lines 443–600): deduct the
stake (the rpc error is not checked), then insert a `pending` bet
carrying a settlement time.  `ts` is the `Date.now()` string used in
the deduction's reference id. -/
def placeBetNew (st : SysState) (uid betId indexName : String) (amount : ℚ)
    (betType : BetType) (number : ℤ) (settlementTime : ℤ) (ts : String) : SysState :=
  let db1 := (rpcUpdateWalletBalance st.db uid amount "bet_place"
      (some ("Bet placed on " ++ indexName)) (some ("bet_" ++ ts))).2
  { bets := st.bets ++
      [{ id := betId, userId := uid, indexName := indexName, amount := amount,
         betType := betType, betNumber := number, actualValue := none,
         actualDecimal := none, isWin := false, winAmount := 0,
         settlementTime := some settlementTime, status := "pending" }],
    db := db1 }

/-- `placeBet` of the older `BettingInterface` revision
(`src/unnamed/part_000`, lines 106–238): settle the bet immediately
against the displayed value — deduct the stake, insert the settled-down
row (the `status` column defaults to `'pending'` and `settlement_time`
to `NULL`), then credit the winnings when the bet won. -/
def placeBetOld (st : SysState) (uid betId indexName : String) (amount : ℚ)
    (betType : BetType) (number : ℤ) (currentValue : ℚ) (ts : String) : SysState :=
  let decimalPart := decimalPart2 currentValue
  let isWin := clientIsWin betType number currentValue
  let winAmount : ℚ := if isWin then amount * (95 / 100) else 0
  let db1 := (rpcUpdateWalletBalance st.db uid amount "bet_place"
      (some ("Bet placed on " ++ indexName)) (some ("bet_" ++ ts))).2
  let bets' := st.bets ++
      [{ id := betId, userId := uid, indexName := indexName, amount := amount,
         betType := betType, betNumber := number, actualValue := some currentValue,
         actualDecimal := some decimalPart, isWin := isWin, winAmount := winAmount,
         settlementTime := none, status := "pending" }]
  let db2 :=
    if isWin then
      (rpcUpdateWalletBalance db1 uid winAmount "bet_win"
        (some ("Winnings from " ++ indexName ++ " bet")) (some betId)).2
    else db1
  { bets := bets', db := db2 }

/-- `handleBetSettlement` of the current `BettingInterface` revision
(`src/src/components/BettingInterface.tsx`, lines 373–441): on a
settlement message for a tracked pending bet, recompute the win amount
from the tracked stake, write the result onto the bet row (note: it
does not set `status`), and credit the wallet on a win.  The tracked
`pendingBets` entry supplies `pendingAmount` and `pendingIndexName`. -/
def handleBetSettlement (st : SysState) (uid betId : String) (pendingAmount : ℚ)
    (pendingIndexName : String) (resIsWin : Bool) (resActualValue : ℚ)
    (resDecimalPart : ℤ) : SysState :=
  let isWin := resIsWin
  let winAmount : ℚ := if isWin then pendingAmount * (95 / 100) else 0
  let bets' := st.bets.map fun b =>
    if b.id == betId then
      { b with actualValue := some resActualValue, actualDecimal := some resDecimalPart,
               isWin := isWin, winAmount := winAmount }
    else b
  let db' :=
    if isWin then
      (rpcUpdateWalletBalance st.db uid winAmount "bet_win"
        (some ("Winnings from " ++ pendingIndexName ++ " bet")) (some betId)).2
    else st.db
  { bets := bets', db := db' }

/-! ## The verify-payment function -/

/-- A payment object fetched from the Razorpay API; `amount` is in
paise. -/
structure Payment where
  status : String
  amount : ℚ
  deriving DecidableEq, Repr

inductive VerifyResult
  | success (amount : ℚ) (paymentId : String)
  | errorResp (msg : String)
  deriving DecidableEq, Repr

/-- The `verify-payment` serve handler
(`src/supabase/functions/verify-payment/index.ts`, lines 10–121).
`hmac secret body` abstracts `createHmac("sha256", secret).update(body)
.digest("hex")`; `fetchPayment` abstracts the gateway GET (`none` for a
non-ok response); `user` is the authenticated user id, `none` when
authentication failed.  Every `throw` lands in the catch arm, returning
status 500 with the message and leaving the database untouched. -/
def verifyPayment (hmac : String → String → String) (user : Option String)
    (orderId paymentId signature : Option String)
    (razorpayKeySecret : Option String)
    (fetchPayment : String → Option Payment) (db : DbState) :
    VerifyResult × DbState :=
  match user with
  | none => (.errorResp "User not authenticated", db)
  | some uid =>
    match orderId, paymentId, signature with
    | some oid, some pid, some sig =>
      match razorpayKeySecret with
      | none => (.errorResp "Razorpay key secret not configured", db)
      | some secret =>
        let body := oid ++ "|" ++ pid
        let expectedSignature := hmac secret body
        if expectedSignature ≠ sig then
          (.errorResp "Invalid payment signature", db)
        else
          match fetchPayment pid with
          | none => (.errorResp "Failed to fetch payment details", db)
          | some payment =>
            if payment.status ≠ "captured" then
              (.errorResp "Payment not captured", db)
            else
              let amount := payment.amount / 100
              match update_wallet_balance db uid amount "credit"
                  (some "Wallet top-up via Razorpay") (some pid) with
              | .error _ => (.errorResp "Failed to update wallet balance", db)
              | .ok db' => (.success amount pid, db')
    | _, _, _ => (.errorResp "Missing payment verification data", db)

/-! ## Derived observations used by the statements -/

/-- Balance of a user's wallet (the row `SELECT`ed by `user_id`). -/
def walletBalance (db : DbState) (uid : String) : Option ℚ :=
  (db.wallets.find? fun w => w.userId == uid).map fun w => w.balance

/-- The bets row a trigger's `.eq('id', betId).single()` fetch sees. -/
def betById (st : SysState) (betId : String) : Option Bet :=
  st.bets.find? fun b => b.id == betId

/-- A ledger entry crediting the winnings of the given bet: the
`bet_win` transactions that `update_wallet_balance` records carry the
bet's id as `reference_id`. -/
def winCreditTxn (betId : String) (txn : Txn) : Bool :=
  txn.ttype == "bet_win" && txn.referenceId == some betId

/-- How many times the winnings of a bet have been credited. -/
def winCredits (db : DbState) (betId : String) : ℕ :=
  (db.txns.filter (winCreditTxn betId)).length

/-- How often a bet's winnings should have been credited given the
row's current shape: a row that has been settled (by the trigger), or
was written by the old client (which settles at placement and leaves
`settlement_time` `NULL`), carries one credit exactly when it is a win;
a pending scheduled row carries none. -/
def expectedCredits (b : Bet) : ℕ :=
  if b.status = "settled" ∨ b.settlementTime = none then
    (if b.isWin then 1 else 0)
  else 0

/-- Lifecycle invariant for one bet: the row exists (owned by `uid`,
settlement time unchanged since placement), its winnings have been
credited exactly `expectedCredits` times, bet ids are unique, and the
user has a wallet row. -/
def Inv (st : SysState) (betId uid : String) (stime : Option ℤ) : Prop :=
  (∃ b, betById st betId = some b ∧ b.userId = uid ∧ b.settlementTime = stime ∧
      winCredits st.db betId = expectedCredits b) ∧
  (st.bets.map fun b => b.id).Nodup ∧
  (st.db.wallets.find? fun w => w.userId == uid).isSome = true

/-- A sequence of cron firings of the `bet-scheduler` function: each
run happens at its own time and the settlement trigger draws its own
random stock values (`rand`). -/
def runScheduler (runs : List (ℤ × (String → ℚ))) (st : SysState) : SysState :=
  runs.foldl (fun s r => (schedulerRun (triggerCall r.1 r.2) s r.1).2) st

/-! ## General list helpers -/

theorem find?_append_of_none {α : Type} (p : α → Bool) (l₁ l₂ : List α)
    (h : ∀ x ∈ l₁, p x = false) : (l₁ ++ l₂).find? p = l₂.find? p := by
  induction l₁ with
  | nil => rfl
  | cons a t ih =>
    rw [List.cons_append, List.find?_cons_of_neg _ (by simp [h a (by simp)])]
    exact ih fun x hx => h x (by simp [hx])

theorem find?_map_key {α : Type} (key : α → String) (f : α → α)
    (hk : ∀ x, key (f x) = key x) (l : List α) (k : String) :
    (l.map f).find? (fun x => key x == k) = (l.find? fun x => key x == k).map f := by
  induction l with
  | nil => rfl
  | cons a t ih =>
    rw [List.map_cons]
    by_cases h : (key a == k) = true
    · rw [List.find?_cons_of_pos (p := fun x => key x == k) _
          (show (key (f a) == k) = true by rw [hk]; exact h),
        List.find?_cons_of_pos (p := fun x => key x == k) _ h]
      rfl
    · rw [List.find?_cons_of_neg (p := fun x => key x == k) _
          (show ¬(key (f a) == k) = true by rw [hk]; exact h),
        List.find?_cons_of_neg (p := fun x => key x == k) _ h, ih]

theorem find?_eq_of_mem_nodup (l : List Bet) (b : Bet) (hb : b ∈ l)
    (hnd : (l.map fun x => x.id).Nodup) :
    l.find? (fun x => x.id == b.id) = some b := by
  induction l with
  | nil => cases hb
  | cons a t ih =>
    rw [List.map_cons, List.nodup_cons] at hnd
    rcases List.mem_cons.mp hb with rfl | hbt
    · exact List.find?_cons_of_pos (p := fun x : Bet => x.id == b.id) _ (by simp)
    · have hne : ¬(a.id == b.id) = true := by
        have hmem : b.id ∈ t.map (fun x => x.id) := List.mem_map_of_mem _ hbt
        simpa using fun he : a.id = b.id => hnd.1 (he ▸ hmem)
      rw [List.find?_cons_of_neg (p := fun x : Bet => x.id == b.id) _ hne]
      exact ih hbt hnd.2

theorem find?_isSome_userId (l : List Wallet) (uid : String) :
    ((l.find? fun w => w.userId == uid).isSome = true) ↔
      uid ∈ l.map fun w => w.userId := by
  rw [List.find?_isSome, List.mem_map]
  constructor
  · rintro ⟨w, hw, hp⟩
    exact ⟨w, hw, beq_iff_eq.mp hp⟩
  · rintro ⟨w, hw, hp⟩
    exact ⟨w, hw, beq_iff_eq.mpr hp⟩

/-! ## The stored procedure, characterised branch by branch -/

theorem uwb_no_wallet (st : DbState) (uid : String) (amt : ℚ) (ty : String)
    (d r : Option String)
    (h : st.wallets.find? (fun w => w.userId == uid) = none) :
    update_wallet_balance st uid amt ty d r = .error "Wallet not found for user" := by
  unfold update_wallet_balance
  rw [h]

theorem uwb_credit (st : DbState) (uid : String) (amt : ℚ) (ty : String)
    (d r : Option String) (w : Wallet)
    (hw : st.wallets.find? (fun w' => w'.userId == uid) = some w)
    (hty : (ty == "credit" || ty == "bet_win") = true) :
    update_wallet_balance st uid amt ty d r =
      .ok { wallets := st.wallets.map fun w' =>
              if w'.id == w.id then { w' with balance := w.balance + amt } else w',
            txns := st.txns ++
              [{ userId := uid, walletId := w.id, ttype := ty, amount := amt,
                 description := d, referenceId := r }] } := by
  unfold update_wallet_balance
  rw [hw]
  simp [hty]

theorem uwb_debit_insufficient (st : DbState) (uid : String) (amt : ℚ) (ty : String)
    (d r : Option String) (w : Wallet)
    (hw : st.wallets.find? (fun w' => w'.userId == uid) = some w)
    (hty : (ty == "credit" || ty == "bet_win") = false)
    (hbal : w.balance - amt < 0) :
    update_wallet_balance st uid amt ty d r = .error "Insufficient wallet balance" := by
  unfold update_wallet_balance
  rw [hw]
  simp [hty, hbal]

theorem uwb_debit_ok (st : DbState) (uid : String) (amt : ℚ) (ty : String)
    (d r : Option String) (w : Wallet)
    (hw : st.wallets.find? (fun w' => w'.userId == uid) = some w)
    (hty : (ty == "credit" || ty == "bet_win") = false)
    (hbal : ¬w.balance - amt < 0) :
    update_wallet_balance st uid amt ty d r =
      .ok { wallets := st.wallets.map fun w' =>
              if w'.id == w.id then { w' with balance := w.balance - amt } else w',
            txns := st.txns ++
              [{ userId := uid, walletId := w.id, ttype := ty, amount := amt,
                 description := d, referenceId := r }] } := by
  unfold update_wallet_balance
  rw [hw]
  simp [hty, hbal]

theorem uwb_ok_shape (st : DbState) (uid : String) (amt : ℚ) (ty : String)
    (d r : Option String) (st' : DbState)
    (h : update_wallet_balance st uid amt ty d r = .ok st') :
    ∃ wid, st'.txns = st.txns ++
        [{ userId := uid, walletId := wid, ttype := ty, amount := amt,
           description := d, referenceId := r }] ∧
      (st'.wallets.map fun w => w.userId) = st.wallets.map fun w => w.userId := by
  unfold update_wallet_balance at h
  cases hf : st.wallets.find? (fun w => w.userId == uid) with
  | none => rw [hf] at h; cases h
  | some w =>
    rw [hf] at h
    simp only at h
    refine ⟨w.id, ?_⟩
    split at h
    · split at h
      · simp at h
      · injection h with h
        subst h
        refine ⟨rfl, ?_⟩
        rw [List.map_map]
        exact List.map_congr_left fun a _ => by
          by_cases hc : (a.id == w.id) = true <;> simp [Function.comp, hc]
    · split at h
      · simp at h
      · injection h with h
        subst h
        refine ⟨rfl, ?_⟩
        rw [List.map_map]
        exact List.map_congr_left fun a _ => by
          by_cases hc : (a.id == w.id) = true <;> simp [Function.comp, hc]

/-! ## The rpc wrapper: effect on wallets and on the winnings ledger -/

theorem rpc_wallet_isSome (st : DbState) (uid : String) (amt : ℚ) (ty : String)
    (d r : Option String) (uid' : String) :
    ((rpcUpdateWalletBalance st uid amt ty d r).2.wallets.find?
        fun w => w.userId == uid').isSome
      = (st.wallets.find? fun w => w.userId == uid').isSome := by
  unfold rpcUpdateWalletBalance
  cases hu : update_wallet_balance st uid amt ty d r with
  | error e => rfl
  | ok st' =>
    obtain ⟨wid, htx, hmap⟩ := uwb_ok_shape st uid amt ty d r st' hu
    rw [Bool.eq_iff_iff, find?_isSome_userId, find?_isSome_userId, hmap]

theorem winCredits_rpc_of_ne (st : DbState) (uid : String) (amt : ℚ) (ty : String)
    (d r : Option String) (betId : String)
    (h : (ty == "bet_win" && r == some betId) = false) :
    winCredits (rpcUpdateWalletBalance st uid amt ty d r).2 betId
      = winCredits st betId := by
  unfold rpcUpdateWalletBalance
  cases hu : update_wallet_balance st uid amt ty d r with
  | error e => rfl
  | ok st' =>
    obtain ⟨wid, htx, hmap⟩ := uwb_ok_shape st uid amt ty d r st' hu
    simp only [winCredits, htx, List.filter_append, List.length_append]
    simp [winCreditTxn, h]

theorem winCredits_rpc_win (st : DbState) (uid : String) (amt : ℚ)
    (d : Option String) (betId : String)
    (hw : (st.wallets.find? fun w => w.userId == uid).isSome = true) :
    winCredits (rpcUpdateWalletBalance st uid amt "bet_win" d (some betId)).2 betId
      = winCredits st betId + 1 := by
  obtain ⟨w, hwe⟩ := Option.isSome_iff_exists.mp hw
  have hok := uwb_credit st uid amt "bet_win" d (some betId) w hwe rfl
  unfold rpcUpdateWalletBalance
  rw [hok]
  simp [winCredits, List.filter_append, winCreditTxn]

/-! ## The settlement trigger, branch by branch -/

theorem betById_map (f : Bet → Bet) (hid : ∀ b, (f b).id = b.id) (l : List Bet)
    (k : String) :
    (l.map f).find? (fun b => b.id == k) = (l.find? fun b => b.id == k).map f :=
  find?_map_key (fun b => b.id) f hid l k

theorem trigger_no_index (st : SysState) (betId : String) (stime : ℤ) (idx : String)
    (now : ℤ) (v : ℚ)
    (hidx : STOCK_INDICES.find? (fun c => c.name == idx) = none) :
    betSettlementTrigger st betId stime idx now v = (.errorResp "Invalid index name", st) := by
  unfold betSettlementTrigger
  rw [hidx]

theorem trigger_not_due (st : SysState) (betId : String) (stime : ℤ) (idx : String)
    (now : ℤ) (v : ℚ) (cfg : StockIndexCfg)
    (hidx : STOCK_INDICES.find? (fun c => c.name == idx) = some cfg)
    (ht : ¬stime ≤ now) :
    betSettlementTrigger st betId stime idx now v = (.scheduled stime, st) := by
  unfold betSettlementTrigger
  rw [hidx]
  simp only [if_neg ht]

theorem trigger_no_bet (st : SysState) (betId : String) (stime : ℤ) (idx : String)
    (now : ℤ) (v : ℚ) (cfg : StockIndexCfg)
    (hidx : STOCK_INDICES.find? (fun c => c.name == idx) = some cfg)
    (ht : stime ≤ now)
    (hb : st.bets.find? (fun b => b.id == betId) = none) :
    betSettlementTrigger st betId stime idx now v = (.errorResp "Bet not found", st) := by
  unfold betSettlementTrigger
  rw [hidx]
  simp only [if_pos ht]
  rw [hb]

theorem trigger_settles (st : SysState) (betId : String) (stime now : ℤ) (idx : String)
    (v : ℚ) (cfg : StockIndexCfg) (b : Bet)
    (hidx : STOCK_INDICES.find? (fun c => c.name == idx) = some cfg)
    (ht : stime ≤ now)
    (hb : st.bets.find? (fun x => x.id == betId) = some b) :
    betSettlementTrigger st betId stime idx now v =
      (.settled betId v (decimalPart1 v) (serverIsWin b.betType b.betNumber v),
       { bets := st.bets.map fun x =>
           if x.id == betId then
             { x with actualValue := some v, actualDecimal := some (decimalPart1 v),
                      isWin := serverIsWin b.betType b.betNumber v,
                      winAmount := if serverIsWin b.betType b.betNumber v then
                                     b.amount * (95 / 100)
                                   else 0,
                      status := "settled" }
           else x,
         db := if serverIsWin b.betType b.betNumber v then
                 (rpcUpdateWalletBalance st.db b.userId
                   (if serverIsWin b.betType b.betNumber v then b.amount * (95 / 100) else 0)
                   "bet_win" (some ("Winnings from " ++ b.indexName ++ " bet"))
                   (some betId)).2
               else st.db }) := by
  unfold betSettlementTrigger
  rw [hidx]
  simp only [if_pos ht]
  rw [hb]

/-- A trigger invocation for a different bet id leaves our bet's row,
our winnings count, the id column and the user's wallet row intact. -/
theorem trigger_frame_other (st : SysState) (tid : String) (stime : ℤ) (idx : String)
    (now : ℤ) (v : ℚ) (betId uid : String) (hne : tid ≠ betId) :
    betById (betSettlementTrigger st tid stime idx now v).2 betId = betById st betId ∧
    winCredits (betSettlementTrigger st tid stime idx now v).2.db betId
      = winCredits st.db betId ∧
    ((betSettlementTrigger st tid stime idx now v).2.bets.map fun b => b.id)
      = (st.bets.map fun b => b.id) ∧
    ((betSettlementTrigger st tid stime idx now v).2.db.wallets.find?
        fun w => w.userId == uid).isSome
      = (st.db.wallets.find? fun w => w.userId == uid).isSome := by
  cases hidx : STOCK_INDICES.find? (fun c => c.name == idx) with
  | none =>
    rw [trigger_no_index st tid stime idx now v hidx]
    exact ⟨rfl, rfl, rfl, rfl⟩
  | some cfg =>
    by_cases ht : stime ≤ now
    · cases hb : st.bets.find? (fun b => b.id == tid) with
      | none =>
        rw [trigger_no_bet st tid stime idx now v cfg hidx ht hb]
        exact ⟨rfl, rfl, rfl, rfl⟩
      | some bet =>
        rw [trigger_settles st tid stime now idx v cfg bet hidx ht hb]
        have hidpres : ∀ x : Bet,
            ((if x.id == tid then
              { x with actualValue := some v, actualDecimal := some (decimalPart1 v),
                       isWin := serverIsWin bet.betType bet.betNumber v,
                       winAmount := if serverIsWin bet.betType bet.betNumber v then
                                      bet.amount * (95 / 100)
                                    else 0,
                       status := "settled" }
            else x) : Bet).id = x.id := by
          intro x
          by_cases hc : (x.id == tid) = true <;> simp [hc]
        dsimp only
        refine ⟨?_, ?_, ?_, ?_⟩
        · unfold betById
          dsimp only
          rw [betById_map _ hidpres]
          cases hfb : st.bets.find? (fun b => b.id == betId) with
          | none => rfl
          | some x =>
            have hx := List.find?_some (p := fun b : Bet => b.id == betId) hfb
            have hxid : x.id = betId := beq_iff_eq.mp hx
            have hxt : (x.id == tid) = false := by
              rw [hxid]
              exact beq_eq_false_iff_ne.mpr fun h => hne h.symm
            simp only [Option.map_some']
            rw [if_neg (show ¬((x.id == tid) = true) by simp [hxt])]
        · by_cases hiw : serverIsWin bet.betType bet.betNumber v = true
          · rw [if_pos hiw]
            exact winCredits_rpc_of_ne _ _ _ _ _ _ _ (by simp [hne])
          · rw [if_neg hiw]
        · rw [List.map_map]
          exact List.map_congr_left fun a _ => hidpres a
        · by_cases hiw : serverIsWin bet.betType bet.betNumber v = true
          · rw [if_pos hiw]
            exact rpc_wallet_isSome _ _ _ _ _ _ _
          · rw [if_neg hiw]
    · rw [trigger_not_due st tid stime idx now v cfg hidx ht]
      exact ⟨rfl, rfl, rfl, rfl⟩

/-- A trigger invocation for our own pending bet at or past its
settlement time preserves the lifecycle invariant: the row becomes
`settled` and the winnings are credited exactly when it is a win. -/
theorem Inv_trigger_self (st : SysState) (betId uid : String) (t : ℤ) (idx : String)
    (now : ℤ) (v : ℚ) (b : Bet)
    (hb : betById st betId = some b) (hbu : b.userId = uid)
    (hbs : b.settlementTime = some t) (hpend : b.status = "pending")
    (hcred : winCredits st.db betId = expectedCredits b)
    (hnd : (st.bets.map fun x => x.id).Nodup)
    (hw : (st.db.wallets.find? fun w => w.userId == uid).isSome = true)
    (ht : t ≤ now) :
    Inv (betSettlementTrigger st betId t idx now v).2 betId uid (some t) := by
  have hb' : st.bets.find? (fun x => x.id == betId) = some b := hb
  have hcred0 : winCredits st.db betId = 0 := by
    rw [hcred]
    unfold expectedCredits
    rw [if_neg]
    push_neg
    refine ⟨by rw [hpend]; decide, ?_⟩
    rw [hbs]
    exact fun h => Option.noConfusion h
  cases hidx : STOCK_INDICES.find? (fun c => c.name == idx) with
  | none =>
    rw [trigger_no_index st betId t idx now v hidx]
    exact ⟨⟨b, hb, hbu, hbs, hcred⟩, hnd, hw⟩
  | some cfg =>
    rw [trigger_settles st betId t now idx v cfg b hidx ht hb']
    have hidpres : ∀ x : Bet,
        ((if x.id == betId then
          { x with actualValue := some v, actualDecimal := some (decimalPart1 v),
                   isWin := serverIsWin b.betType b.betNumber v,
                   winAmount := if serverIsWin b.betType b.betNumber v then
                                  b.amount * (95 / 100)
                                else 0,
                   status := "settled" }
        else x) : Bet).id = x.id := by
      intro x
      by_cases hc : (x.id == betId) = true <;> simp [hc]
    have hbeq : (b.id == betId) = true :=
      List.find?_some (p := fun x : Bet => x.id == betId) hb'
    unfold Inv
    dsimp only
    refine ⟨⟨{ b with actualValue := some v, actualDecimal := some (decimalPart1 v), isWin := serverIsWin b.betType b.betNumber v, winAmount := if serverIsWin b.betType b.betNumber v then b.amount * (95 / 100) else 0, status := "settled" }, ?_, ?_, ?_, ?_⟩, ?_, ?_⟩
    · unfold betById
      dsimp only
      rw [betById_map _ hidpres, hb']
      have : ((if b.id == betId then
          { b with actualValue := some v, actualDecimal := some (decimalPart1 v),
                   isWin := serverIsWin b.betType b.betNumber v,
                   winAmount := if serverIsWin b.betType b.betNumber v then
                                  b.amount * (95 / 100)
                                else 0,
                   status := "settled" }
        else b) : Bet) =
          { b with actualValue := some v, actualDecimal := some (decimalPart1 v),
                   isWin := serverIsWin b.betType b.betNumber v,
                   winAmount := if serverIsWin b.betType b.betNumber v then
                                  b.amount * (95 / 100)
                                else 0,
                   status := "settled" } := if_pos hbeq
      simp only [Option.map_some', this]
    · exact hbu
    · exact hbs
    · by_cases hiw : serverIsWin b.betType b.betNumber v = true
      · dsimp only
        rw [if_pos hiw, hbu, winCredits_rpc_win _ _ _ _ _ hw, hcred0]
        unfold expectedCredits
        simp [hiw]
      · dsimp only
        rw [if_neg hiw, hcred0]
        unfold expectedCredits
        simp only [Bool.not_eq_true] at hiw
        simp [hiw]
    · dsimp only
      rw [List.map_map]
      have heq := List.map_congr_left (l := st.bets)
        (f := (fun x : Bet => x.id) ∘ fun x : Bet =>
          if x.id == betId then
            { x with actualValue := some v, actualDecimal := some (decimalPart1 v),
                     isWin := serverIsWin b.betType b.betNumber v,
                     winAmount := if serverIsWin b.betType b.betNumber v then
                                    b.amount * (95 / 100)
                                  else 0,
                     status := "settled" }
          else x)
        (g := fun x : Bet => x.id) fun a _ => hidpres a
      rw [heq]
      exact hnd
    · dsimp only
      by_cases hiw : serverIsWin b.betType b.betNumber v = true
      · rw [if_pos hiw, hbu, rpc_wallet_isSome]
        exact hw
      · rw [if_neg hiw]
        exact hw

/-! ## The scheduler preserves the lifecycle invariant -/

theorem schedulerLoop_cons_snd (call : SysState → Bet → CallOutcome × SysState)
    (st : SysState) (b : Bet) (rest : List Bet) :
    (schedulerLoop call st (b :: rest)).2 = (schedulerLoop call (call st b).2 rest).2 := rfl

theorem triggerCall_snd (now : ℤ) (rand : String → ℚ) (st : SysState) (b : Bet) :
    (triggerCall now rand st b).2 =
      (betSettlementTrigger st b.id (b.settlementTime.getD 0) b.indexName now (rand b.id)).2 :=
  rfl

theorem Inv_loop (now : ℤ) (rand : String → ℚ) (betId uid : String) (stime : Option ℤ)
    (L : List Bet) : ∀ st : SysState,
    Inv st betId uid stime →
    ((L.map fun b => b.id).count betId ≤ 1) →
    (∀ b ∈ L, b.id = betId → betById st betId = some b ∧ b.status = "pending" ∧
        ∃ t, b.settlementTime = some t ∧ t ≤ now) →
    Inv (schedulerLoop (triggerCall now rand) st L).2 betId uid stime := by
  induction L with
  | nil => exact fun st hInv _ _ => hInv
  | cons b rest ih =>
    intro st hInv hcount hdue
    rw [schedulerLoop_cons_snd]
    by_cases hbid : b.id = betId
    · obtain ⟨hb, hpend, t, hbt, htle⟩ := hdue b (by simp) hbid
      obtain ⟨⟨b0, hb0, hbu0, hbs0, hcred0⟩, hnd, hw⟩ := hInv
      have hb0b : b0 = b := by
        rw [hb0] at hb
        exact (Option.some.injEq _ _).mp hb
      subst hb0b
      have hstime : stime = some t := by rw [← hbs0, hbt]
      subst hstime
      have hInv1 : Inv (triggerCall now rand st b0).2 betId uid (some t) := by
        rw [triggerCall_snd]
        have hgetD : b0.settlementTime.getD 0 = t := by rw [hbt]; rfl
        rw [hgetD, hbid]
        exact Inv_trigger_self st betId uid t b0.indexName now (rand betId) b0 hb0 hbu0
          hbt hpend hcred0 hnd hw htle
      have hcount0 : ((rest.map fun x => x.id).count betId = 0) := by
        rw [List.map_cons, List.count_cons] at hcount
        simp [hbid] at hcount
        omega
      refine ih _ hInv1 (by omega) ?_
      intro b' hb' hb'id
      exfalso
      have : betId ∈ rest.map fun x => x.id := by
        rw [← hb'id]
        exact List.mem_map_of_mem _ hb'
      rw [← List.count_pos_iff] at this
      omega
    · have hframe := trigger_frame_other st b.id (b.settlementTime.getD 0) b.indexName
        now (rand b.id) betId uid hbid
      rw [← triggerCall_snd now rand st b] at hframe
      obtain ⟨hfbet, hfcred, hfids, hfw⟩ := hframe
      obtain ⟨⟨b0, hb0, hbu0, hbs0, hcred0⟩, hnd, hw⟩ := hInv
      have hInv1 : Inv (triggerCall now rand st b).2 betId uid stime := by
        refine ⟨⟨b0, ?_, hbu0, hbs0, ?_⟩, ?_, ?_⟩
        · rw [hfbet]; exact hb0
        · rw [hfcred]; exact hcred0
        · rw [hfids]; exact hnd
        · rw [hfw]; exact hw
      refine ih _ hInv1 ?_ ?_
      · rw [List.map_cons, List.count_cons] at hcount
        omega
      · intro b' hb' hb'id
        obtain ⟨h1, h2, t, h3, h4⟩ := hdue b' (by simp [hb']) hb'id
        exact ⟨by rw [hfbet]; exact h1, h2, t, h3, h4⟩

theorem Inv_schedulerRun (now : ℤ) (rand : String → ℚ) (betId uid : String)
    (stime : Option ℤ) (st : SysState) (hInv : Inv st betId uid stime) :
    Inv (schedulerRun (triggerCall now rand) st now).2 betId uid stime := by
  have hrun : (schedulerRun (triggerCall now rand) st now).2
      = (schedulerLoop (triggerCall now rand) st (dueBets st now)).2 := rfl
  rw [hrun]
  have hnd := hInv.2.1
  refine Inv_loop now rand betId uid stime (dueBets st now) st hInv ?_ ?_
  · have hsub : ((dueBets st now).map fun b => b.id).Sublist
        (st.bets.map fun b => b.id) := (List.filter_sublist _).map _
    calc ((dueBets st now).map fun b => b.id).count betId
        ≤ (st.bets.map fun b => b.id).count betId := hsub.count_le betId
      _ ≤ 1 := List.nodup_iff_count_le_one.mp hnd betId
  · intro b hb hbid
    have hmem := List.mem_filter.mp hb
    obtain ⟨hmem, hcond⟩ := hmem
    rw [Bool.and_eq_true] at hcond
    obtain ⟨hpend, hany⟩ := hcond
    have hpend' : b.status = "pending" := beq_iff_eq.mp hpend
    refine ⟨?_, hpend', ?_⟩
    · have := find?_eq_of_mem_nodup st.bets b hmem hnd
      unfold betById
      simpa [hbid] using this
    · cases hst : b.settlementTime with
      | none => rw [hst] at hany; cases hany
      | some t =>
        rw [hst] at hany
        exact ⟨t, rfl, by simpa using hany⟩

theorem Inv_runScheduler (runs : List (ℤ × (String → ℚ))) (betId uid : String)
    (stime : Option ℤ) : ∀ st : SysState, Inv st betId uid stime →
    Inv (runScheduler runs st) betId uid stime := by
  induction runs with
  | nil => exact fun st hInv => hInv
  | cons r rest ih =>
    intro st hInv
    unfold runScheduler
    rw [List.foldl_cons]
    exact ih _ (Inv_schedulerRun r.1 r.2 betId uid stime st hInv)

/-! ## Placement establishes the invariant -/

theorem Inv_placeBetNew (st0 : SysState) (uid betId indexName ts : String) (amount : ℚ)
    (bt : BetType) (n : ℤ) (sTime : ℤ)
    (hfresh : ∀ b ∈ st0.bets, b.id ≠ betId)
    (hnd : (st0.bets.map fun b => b.id).Nodup)
    (hhist : winCredits st0.db betId = 0)
    (hw : (st0.db.wallets.find? fun w => w.userId == uid).isSome = true) :
    Inv (placeBetNew st0 uid betId indexName amount bt n sTime ts) betId uid
      (some sTime) := by
  unfold placeBetNew Inv
  dsimp only
  refine ⟨⟨{ id := betId, userId := uid, indexName := indexName, amount := amount, betType := bt, betNumber := n, actualValue := none, actualDecimal := none, isWin := false, winAmount := 0, settlementTime := some sTime, status := "pending" }, ?_, rfl, rfl, ?_⟩, ?_, ?_⟩
  · unfold betById
    dsimp only
    rw [find?_append_of_none _ _ _
      (fun b hb => beq_eq_false_iff_ne.mpr (hfresh b hb))]
    exact List.find?_cons_of_pos (p := fun b : Bet => b.id == betId) _ (by simp)
  · rw [winCredits_rpc_of_ne _ _ _ _ _ _ _ (by rfl), hhist]
    simp [expectedCredits]
  · rw [List.map_append, List.nodup_append]
    refine ⟨hnd, by simp, ?_⟩
    intro a ha hb
    simp only [List.map_cons, List.map_nil, List.mem_singleton] at hb
    subst hb
    obtain ⟨b, hbmem, hbid⟩ := List.mem_map.mp ha
    exact hfresh b hbmem hbid
  · rw [rpc_wallet_isSome]
    exact hw

theorem Inv_placeBetOld (st0 : SysState) (uid betId indexName ts : String) (amount : ℚ)
    (bt : BetType) (n : ℤ) (v : ℚ)
    (hfresh : ∀ b ∈ st0.bets, b.id ≠ betId)
    (hnd : (st0.bets.map fun b => b.id).Nodup)
    (hhist : winCredits st0.db betId = 0)
    (hw : (st0.db.wallets.find? fun w => w.userId == uid).isSome = true) :
    Inv (placeBetOld st0 uid betId indexName amount bt n v ts) betId uid none := by
  unfold placeBetOld Inv
  dsimp only
  refine ⟨⟨{ id := betId, userId := uid, indexName := indexName, amount := amount, betType := bt, betNumber := n, actualValue := some v, actualDecimal := some (decimalPart2 v), isWin := clientIsWin bt n v, winAmount := if clientIsWin bt n v then amount * (95 / 100) else 0, settlementTime := none, status := "pending" }, ?_, rfl, rfl, ?_⟩, ?_, ?_⟩
  · unfold betById
    dsimp only
    rw [find?_append_of_none _ _ _
      (fun b hb => beq_eq_false_iff_ne.mpr (hfresh b hb))]
    exact List.find?_cons_of_pos (p := fun b : Bet => b.id == betId) _ (by simp)
  · have hplace : winCredits (rpcUpdateWalletBalance st0.db uid amount "bet_place"
        (some ("Bet placed on " ++ indexName)) (some ("bet_" ++ ts))).2 betId = 0 := by
      rw [winCredits_rpc_of_ne _ _ _ _ _ _ _ (by rfl)]
      exact hhist
    have hwplace : ((rpcUpdateWalletBalance st0.db uid amount "bet_place"
        (some ("Bet placed on " ++ indexName)) (some ("bet_" ++ ts))).2.wallets.find?
          fun w => w.userId == uid).isSome = true := by
      rw [rpc_wallet_isSome]
      exact hw
    by_cases hiw : clientIsWin bt n v = true
    · rw [if_pos hiw, winCredits_rpc_win _ _ _ _ _ hwplace, hplace]
      unfold expectedCredits
      simp [hiw]
    · rw [if_neg hiw, hplace]
      unfold expectedCredits
      simp only [Bool.not_eq_true] at hiw
      simp [hiw]
  · rw [List.map_append, List.nodup_append]
    refine ⟨hnd, by simp, ?_⟩
    intro a ha hb
    simp only [List.map_cons, List.map_nil, List.mem_singleton] at hb
    subst hb
    obtain ⟨b, hbmem, hbid⟩ := List.mem_map.mp ha
    exact hfresh b hbmem hbid
  · by_cases hiw : clientIsWin bt n v = true
    · rw [if_pos hiw, rpc_wallet_isSome, rpc_wallet_isSome]
      exact hw
    · rw [if_neg hiw, rpc_wallet_isSome]
      exact hw

/-! ## Scheduler loop: shape of the results array -/

theorem schedulerLoop_cons_fst (call : SysState → Bet → CallOutcome × SysState)
    (st : SysState) (b : Bet) (rest : List Bet) :
    (schedulerLoop call st (b :: rest)).1
      = (match (call st b).1 with
         | .resp ok _ => ({ betId := b.id, success := ok } : SchedEntry)
         | .netErr _ => ({ betId := b.id, success := false } : SchedEntry))
        :: (schedulerLoop call (call st b).2 rest).1 := rfl

theorem schedulerLoop_results (call : SysState → Bet → CallOutcome × SysState)
    (L : List Bet) : ∀ st : SysState,
    ((schedulerLoop call st L).1.map fun e => e.betId) = L.map fun b => b.id := by
  induction L with
  | nil => exact fun st => rfl
  | cons b rest ih =>
    intro st
    rw [schedulerLoop_cons_fst, List.map_cons, List.map_cons, ih]
    cases (call st b).1 <;> rfl

/-! ## The claims -/

/-- C6: on each run the scheduler selects exactly the pending bets whose
settlement time has passed, pushes exactly one per-bet result entry per
selected bet — in order, one settlement request each, no retry, a
failure never stopping the loop — and reports `settledBets` as the
number of attempts, failed ones included. -/
theorem claim_C6 (call : SysState → Bet → CallOutcome × SysState) (st : SysState)
    (now : ℤ) :
    ((schedulerRun call st now).1.results.map fun e => e.betId)
        = ((dueBets st now).map fun b => b.id) ∧
    (schedulerRun call st now).1.settledBets
        = (schedulerRun call st now).1.results.length ∧
    (schedulerRun call st now).1.settledBets = (dueBets st now).length ∧
    (schedulerRun call st now).1.success = true ∧
    ∀ b : Bet, b ∈ dueBets st now ↔
      b ∈ st.bets ∧ b.status = "pending" ∧ ∃ t, b.settlementTime = some t ∧ t ≤ now := by
  have hres : (schedulerRun call st now).1.results
      = (schedulerLoop call st (dueBets st now)).1 := rfl
  have hmap := schedulerLoop_results call (dueBets st now) st
  refine ⟨by rw [hres]; exact hmap, rfl, ?_, rfl, ?_⟩
  · show (schedulerLoop call st (dueBets st now)).1.length = (dueBets st now).length
    have h1 := congrArg List.length hmap
    rwa [List.length_map, List.length_map] at h1
  · intro b
    unfold dueBets
    rw [List.mem_filter]
    constructor
    · rintro ⟨hmem, hcond⟩
      rw [Bool.and_eq_true] at hcond
      obtain ⟨hpend, hany⟩ := hcond
      refine ⟨hmem, beq_iff_eq.mp hpend, ?_⟩
      cases hst : b.settlementTime with
      | none => rw [hst] at hany; cases hany
      | some t =>
        rw [hst] at hany
        exact ⟨t, rfl, by simpa using hany⟩
    · rintro ⟨hmem, hpend, t, hst, hle⟩
      refine ⟨hmem, ?_⟩
      rw [Bool.and_eq_true]
      exact ⟨beq_iff_eq.mpr hpend, by rw [hst]; simpa using hle⟩

/-- C8: invoking the settlement trigger strictly before the bet's
settlement time returns the 200 "scheduled" response and leaves the
whole state — bets row, realized value, win flag, status and wallets —
untouched. -/
theorem claim_C8 (st : SysState) (betId : String) (stime : ℤ) (idx : String)
    (now : ℤ) (v : ℚ) (cfg : StockIndexCfg)
    (hidx : STOCK_INDICES.find? (fun c => c.name == idx) = some cfg)
    (hnow : now < stime) :
    betSettlementTrigger st betId stime idx now v = (.scheduled stime, st) :=
  trigger_not_due st betId stime idx now v cfg hidx (by omega)

/-- Witness for C8 at a concrete state: a Taiwan bet with settlement
time 5 polled at time 0 is left untouched. -/
theorem claim_C8_witness :
    betSettlementTrigger ⟨[], ⟨[], []⟩⟩ "b1" 5 "Taiwan" 0 100 =
      (.scheduled 5, ⟨[], ⟨[], []⟩⟩) :=
  claim_C8 ⟨[], ⟨[], []⟩⟩ "b1" 5 "Taiwan" 0 100
    { name := "Taiwan", timezone := "Asia/Taipei", marketOpen := 9, marketClose := 13.5 }
    rfl (by norm_num)

/-- C2: the settlement code contradicts the digit rule stated by the
claim (and by the repository's own bet-type labels, "Andar (First
decimal digit .X0)", "Bahar (Second decimal digit .0X)", "Pair (Both
decimal digits .XX)").  At the realized value 12345.25 a bahar bet on 5
should win (second decimal digit 5) but the server-side settlement
loses it (it compares the FIRST decimal digit 2); a pair bet on 25
should win (decimal part 25) but the server compares the integer part
mod 100 (45) and loses it — while a pair bet on 45 wins; at 12345.35 an
andar bet on 3 should win (first decimal digit 3) but the old client
loses it (it compares `Math.floor(decimalPart / 10) = 3` against
`Math.floor(number / 10) = 0`). -/
theorem claim_C2 :
    specIsWin .bahar 5 (12345.25 : ℚ) = true ∧
    serverIsWin .bahar 5 (12345.25 : ℚ) = false ∧
    specIsWin .pair 25 (12345.25 : ℚ) = true ∧
    serverIsWin .pair 25 (12345.25 : ℚ) = false ∧
    serverIsWin .pair 45 (12345.25 : ℚ) = true ∧
    specIsWin .andar 3 (12345.35 : ℚ) = true ∧
    clientIsWin .andar 3 (12345.35 : ℚ) = false := by
  refine ⟨?_, ?_, ?_, ?_, ?_, ?_, ?_⟩ <;>
    norm_num [specIsWin, serverIsWin, clientIsWin, secondDecimalDigit,
      firstDecimalDigit, decimalPart2, decimalPart1, Int.fdiv]

/-- C4: the duplicated settlement logic is inconsistent — the old
client revision and the server-side trigger disagree on the same bet
and realized value (a bahar bet on 5 at 12345.25: the client checks the
second decimal digit and wins it, the server checks the first and loses
it). -/
theorem claim_C4 : ∃ (bt : BetType) (n : ℤ) (v : ℚ),
    clientIsWin bt n v ≠ serverIsWin bt n v := by
  refine ⟨.bahar, 5, 12345.25, ?_⟩
  have h1 : clientIsWin .bahar 5 (12345.25 : ℚ) = true := by
    norm_num [clientIsWin, decimalPart2]
  have h2 : serverIsWin .bahar 5 (12345.25 : ℚ) = false := by
    norm_num [serverIsWin, decimalPart1]
  rw [h1, h2]
  simp

/-- C3: every revision of the settlement logic pays 0.95 times the
stake on a win and 0 on a loss: the old client's immediate settlement
at placement, the server-side settlement trigger, and the newer
client's websocket settlement handler. -/
theorem claim_C3 :
    (∀ (st : SysState) (uid betId indexName ts : String) (amount : ℚ) (bt : BetType)
        (n : ℤ) (v : ℚ),
      ∃ b : Bet, (placeBetOld st uid betId indexName amount bt n v ts).bets
          = st.bets ++ [b] ∧ b.amount = amount ∧ b.isWin = clientIsWin bt n v ∧
        b.winAmount = (if b.isWin = true then (95 / 100) * amount else 0)) ∧
    (∀ (st : SysState) (betId : String) (stime now : ℤ) (idx : String) (v : ℚ)
        (st' : SysState) (bid : String) (av : ℚ) (dp : ℤ) (iw : Bool),
      betSettlementTrigger st betId stime idx now v = (.settled bid av dp iw, st') →
      ∀ b, betById st' betId = some b →
        b.winAmount = (if b.isWin = true then (95 / 100) * b.amount else 0)) ∧
    (∀ (st : SysState) (uid betId : String) (amt : ℚ) (idxName : String) (riw : Bool)
        (rav : ℚ) (rdp : ℤ) (b : Bet),
      betById (handleBetSettlement st uid betId amt idxName riw rav rdp) betId = some b →
      b.isWin = riw ∧ b.winAmount = (if riw = true then (95 / 100) * amt else 0)) := by
  refine ⟨?_, ?_, ?_⟩
  · intro st uid betId indexName ts amount bt n v
    refine ⟨{ id := betId, userId := uid, indexName := indexName, amount := amount, betType := bt, betNumber := n, actualValue := some v, actualDecimal := some (decimalPart2 v), isWin := clientIsWin bt n v, winAmount := if clientIsWin bt n v then amount * (95 / 100) else 0, settlementTime := none, status := "pending" }, rfl, rfl, rfl, ?_⟩
    by_cases hiw : clientIsWin bt n v = true <;> simp [hiw, mul_comm]
  · intro st betId stime now idx v st' bid av dp iw heq b hb
    cases hidx : STOCK_INDICES.find? (fun c => c.name == idx) with
    | none =>
      rw [trigger_no_index st betId stime idx now v hidx] at heq
      cases heq
    | some cfg =>
      by_cases ht : stime ≤ now
      · cases hfb : st.bets.find? (fun x => x.id == betId) with
        | none =>
          rw [trigger_no_bet st betId stime idx now v cfg hidx ht hfb] at heq
          cases heq
        | some bet =>
          rw [trigger_settles st betId stime now idx v cfg bet hidx ht hfb] at heq
          injection heq with h1 h2
          subst h2
          have hidpres : ∀ x : Bet,
              ((if x.id == betId then
                { x with actualValue := some v, actualDecimal := some (decimalPart1 v),
                         isWin := serverIsWin bet.betType bet.betNumber v,
                         winAmount := if serverIsWin bet.betType bet.betNumber v then
                                        bet.amount * (95 / 100)
                                      else 0,
                         status := "settled" }
              else x) : Bet).id = x.id := by
            intro x
            by_cases hc : (x.id == betId) = true <;> simp [hc]
          unfold betById at hb
          simp only at hb
          rw [betById_map _ hidpres, hfb] at hb
          have hbeq : (bet.id == betId) = true :=
            List.find?_some (p := fun x : Bet => x.id == betId) hfb
          simp only [Option.map_some', if_pos hbeq, Option.some.injEq] at hb
          subst hb
          have hamt : bet.amount * (95 / 100) = (95 / 100) * bet.amount := mul_comm _ _
          by_cases hiw : serverIsWin bet.betType bet.betNumber v = true <;>
            simp [hiw, mul_comm]
      · rw [trigger_not_due st betId stime idx now v cfg hidx ht] at heq
        cases heq
  · intro st uid betId amt idxName riw rav rdp b hb
    unfold handleBetSettlement betById at hb
    simp only at hb
    have hidpres : ∀ x : Bet,
        ((if x.id == betId then
          { x with actualValue := some rav, actualDecimal := some rdp,
                   isWin := riw,
                   winAmount := if riw then amt * (95 / 100) else 0 }
        else x) : Bet).id = x.id := by
      intro x
      by_cases hc : (x.id == betId) = true <;> simp [hc]
    rw [betById_map _ hidpres] at hb
    cases hfb : st.bets.find? (fun x => x.id == betId) with
    | none => rw [hfb] at hb; cases hb
    | some x =>
      rw [hfb] at hb
      have hbeq : (x.id == betId) = true :=
        List.find?_some (p := fun y : Bet => y.id == betId) hfb
      simp only [Option.map_some', if_pos hbeq, Option.some.injEq] at hb
      subst hb
      by_cases hiw : riw = true <;> simp [hiw, mul_comm]

/-- Witness for C3 at a concrete input: placing a losing andar bet of
100 through the old client records a zero win amount. -/
theorem claim_C3_witness :
    ∃ b : Bet, (placeBetOld ⟨[], ⟨[], []⟩⟩ "u1" "b1" "Taiwan" 100 .andar 7 100.25 "t0").bets
        = ([] : List Bet) ++ [b] ∧ b.amount = 100 ∧
      b.isWin = clientIsWin .andar 7 (100.25 : ℚ) ∧
      b.winAmount = (if b.isWin = true then (95 / 100) * 100 else 0) :=
  claim_C3.1 ⟨[], ⟨[], []⟩⟩ "u1" "b1" "Taiwan" "t0" 100 .andar 7 100.25

theorem walletsFind_map (f : Wallet → Wallet) (hu : ∀ w, (f w).userId = w.userId)
    (l : List Wallet) (k : String) :
    (l.map f).find? (fun w => w.userId == k) = (l.find? fun w => w.userId == k).map f :=
  find?_map_key (fun w => w.userId) f hu l k

/-- C5: `update_wallet_balance` raises exactly when the user has no
wallet row or a debit-typed call exceeds the balance; on success the
balance moves by the amount in the direction given by the type and
exactly one matching transaction row is appended; a raised error
commits nothing. -/
theorem claim_C5 (st : DbState) (uid : String) (amt : ℚ) (ty : String)
    (d r : Option String) :
    ((∃ e, update_wallet_balance st uid amt ty d r = .error e) ↔
      (st.wallets.find? fun w => w.userId == uid) = none ∨
      ∃ w, (st.wallets.find? fun w' => w'.userId == uid) = some w ∧
        ¬(ty = "credit" ∨ ty = "bet_win") ∧ w.balance < amt) ∧
    (∀ st', update_wallet_balance st uid amt ty d r = .ok st' →
      ∃ w, (st.wallets.find? fun w' => w'.userId == uid) = some w ∧
        walletBalance st' uid = some (if ty = "credit" ∨ ty = "bet_win"
          then w.balance + amt else w.balance - amt) ∧
        st'.txns = st.txns ++ [{ userId := uid, walletId := w.id, ttype := ty, amount := amt, description := d, referenceId := r }]) ∧
    (∀ e, update_wallet_balance st uid amt ty d r = .error e →
      rpcUpdateWalletBalance st uid amt ty d r = (some e, st)) := by
  have htyiff : ((ty == "credit" || ty == "bet_win") = true)
      ↔ (ty = "credit" ∨ ty = "bet_win") := by
    rw [Bool.or_eq_true, beq_iff_eq, beq_iff_eq]
  have hpres : ∀ (nb : ℚ) (wid : String) (x : Wallet),
      ((if x.id == wid then { x with balance := nb } else x) : Wallet).userId
        = x.userId := by
    intro nb wid x
    by_cases hc : (x.id == wid) = true <;> simp [hc]
  refine ⟨?_, ?_, ?_⟩
  · cases hf : st.wallets.find? (fun w => w.userId == uid) with
    | none =>
      rw [uwb_no_wallet st uid amt ty d r hf]
      constructor
      · intro _
        exact Or.inl rfl
      · intro _
        exact ⟨_, rfl⟩
    | some w =>
      by_cases hty : (ty == "credit" || ty == "bet_win") = true
      · rw [uwb_credit st uid amt ty d r w hf hty]
        constructor
        · rintro ⟨e, he⟩
          cases he
        · rintro (h | ⟨w', hw', hty', _⟩)
          · exact Option.noConfusion h
          · exact absurd (htyiff.mp hty) hty'
      · have htyf : (ty == "credit" || ty == "bet_win") = false := by
          simpa using hty
        by_cases hbal : w.balance - amt < 0
        · rw [uwb_debit_insufficient st uid amt ty d r w hf htyf hbal]
          constructor
          · intro _
            exact Or.inr ⟨w, rfl, fun h => hty (htyiff.mpr h), by linarith⟩
          · intro _
            exact ⟨_, rfl⟩
        · rw [uwb_debit_ok st uid amt ty d r w hf htyf hbal]
          constructor
          · rintro ⟨e, he⟩
            cases he
          · rintro (h | ⟨w', hw', hty', hlt⟩)
            · exact Option.noConfusion h
            · injection hw' with hw'
              subst hw'
              exact absurd (by linarith) hbal
  · intro st' hok
    cases hf : st.wallets.find? (fun w => w.userId == uid) with
    | none =>
      rw [uwb_no_wallet st uid amt ty d r hf] at hok
      cases hok
    | some w =>
      by_cases hty : (ty == "credit" || ty == "bet_win") = true
      · rw [uwb_credit st uid amt ty d r w hf hty] at hok
        injection hok with hok
        subst hok
        refine ⟨w, rfl, ?_, rfl⟩
        unfold walletBalance
        dsimp only
        rw [walletsFind_map _ (hpres _ _), hf]
        simp only [Option.map_some']
        simp [htyiff.mp hty]
      · have htyf : (ty == "credit" || ty == "bet_win") = false := by
          simpa using hty
        by_cases hbal : w.balance - amt < 0
        · rw [uwb_debit_insufficient st uid amt ty d r w hf htyf hbal] at hok
          cases hok
        · rw [uwb_debit_ok st uid amt ty d r w hf htyf hbal] at hok
          injection hok with hok
          subst hok
          have hnot : ¬(ty = "credit" ∨ ty = "bet_win") := fun h =>
            absurd (htyiff.mpr h) (by simp [htyf])
          refine ⟨w, rfl, ?_, rfl⟩
          unfold walletBalance
          dsimp only
          rw [walletsFind_map _ (hpres _ _), hf]
          simp only [Option.map_some']
          simp [hnot]
  · intro e he
    unfold rpcUpdateWalletBalance
    rw [he]

/-- Witness for C5: a 80-rupee debit against a 50-rupee wallet raises
(the insufficient-balance arm of the characterisation, applied at a
concrete database). -/
theorem claim_C5_witness :
    ∃ e, update_wallet_balance ⟨[⟨"w1", "u1", 50⟩], []⟩ "u1" 80 "debit" none none
      = .error e :=
  (claim_C5 ⟨[⟨"w1", "u1", 50⟩], []⟩ "u1" 80 "debit" none none).1.mpr
    (Or.inr ⟨⟨"w1", "u1", 50⟩, rfl, by decide, by norm_num⟩)

/-- C7: with a non-negative amount, a wallet balance that is
non-negative before any `update_wallet_balance` call is non-negative
after it, whatever the transaction type: credits only add, and a debit
that would go negative raises and changes nothing. -/
theorem claim_C7 (st : DbState) (uid : String) (amt : ℚ) (ty : String)
    (d r : Option String) (b : ℚ)
    (hamt : 0 ≤ amt) (hbal : walletBalance st uid = some b) (hb : 0 ≤ b) :
    ∃ b', walletBalance (rpcUpdateWalletBalance st uid amt ty d r).2 uid = some b'
      ∧ 0 ≤ b' := by
  have hpres : ∀ (nb : ℚ) (wid : String) (x : Wallet),
      ((if x.id == wid then { x with balance := nb } else x) : Wallet).userId
        = x.userId := by
    intro nb wid x
    by_cases hc : (x.id == wid) = true <;> simp [hc]
  unfold walletBalance at hbal
  cases hf : st.wallets.find? (fun w => w.userId == uid) with
  | none =>
    rw [hf] at hbal
    cases hbal
  | some w =>
    rw [hf] at hbal
    simp only [Option.map_some', Option.some.injEq] at hbal
    subst hbal
    unfold rpcUpdateWalletBalance
    by_cases hty : (ty == "credit" || ty == "bet_win") = true
    · rw [uwb_credit st uid amt ty d r w hf hty]
      refine ⟨w.balance + amt, ?_, by linarith⟩
      unfold walletBalance
      dsimp only
      rw [walletsFind_map _ (hpres _ _), hf]
      simp
    · have htyf : (ty == "credit" || ty == "bet_win") = false := by
        simpa using hty
      by_cases hlt : w.balance - amt < 0
      · rw [uwb_debit_insufficient st uid amt ty d r w hf htyf hlt]
        refine ⟨w.balance, ?_, hb⟩
        unfold walletBalance
        rw [hf]
        rfl
      · rw [uwb_debit_ok st uid amt ty d r w hf htyf hlt]
        refine ⟨w.balance - amt, ?_, by linarith⟩
        unfold walletBalance
        dsimp only
        rw [walletsFind_map _ (hpres _ _), hf]
        simp

/-- Witness for C7: a 30-rupee debit from a 50-rupee wallet leaves a
non-negative balance. -/
theorem claim_C7_witness :
    ∃ b', walletBalance (rpcUpdateWalletBalance ⟨[⟨"w1", "u1", 50⟩], []⟩ "u1" 30
        "debit" none none).2 "u1" = some b' ∧ 0 ≤ b' :=
  claim_C7 ⟨[⟨"w1", "u1", 50⟩], []⟩ "u1" 30 "debit" none none 50 (by norm_num) rfl
    (by norm_num)

/-- C9: with an authenticated user who owns a wallet, all verification
fields present and the secret configured, verify-payment credits the
wallet exactly when the supplied signature equals the HMAC of
"orderId|paymentId" under the secret and the gateway reports the
payment as captured; the credited amount is the gateway amount divided
by 100 (paise to rupees) and exactly one credit transaction is
recorded; in every other case it returns an error and the database is
unchanged. -/
theorem claim_C9 (hmac : String → String → String) (uid oid pid sig secret : String)
    (fetchPayment : String → Option Payment) (db : DbState) (w : Wallet)
    (hw : db.wallets.find? (fun x => x.userId == uid) = some w) :
    (∀ pay, fetchPayment pid = some pay → pay.status = "captured" →
      sig = hmac secret (oid ++ "|" ++ pid) →
      verifyPayment hmac (some uid) (some oid) (some pid) (some sig) (some secret)
          fetchPayment db
        = (.success (pay.amount / 100) pid,
           { wallets := db.wallets.map fun w' => if w'.id == w.id then { w' with balance := w.balance + pay.amount / 100 } else w',
             txns := db.txns ++ [{ userId := uid, walletId := w.id, ttype := "credit", amount := pay.amount / 100, description := some "Wallet top-up via Razorpay", referenceId := some pid }] })) ∧
    (¬(sig = hmac secret (oid ++ "|" ++ pid) ∧
        ∃ pay, fetchPayment pid = some pay ∧ pay.status = "captured") →
      ∃ msg, verifyPayment hmac (some uid) (some oid) (some pid) (some sig) (some secret)
          fetchPayment db = (.errorResp msg, db)) := by
  constructor
  · intro pay hfp hcap hsig
    unfold verifyPayment
    dsimp only
    rw [if_neg fun h => h hsig.symm, hfp]
    dsimp only
    rw [if_neg fun h => h hcap]
    rw [uwb_credit db uid (pay.amount / 100) "credit"
      (some "Wallet top-up via Razorpay") (some pid) w hw rfl]
  · intro hnc
    unfold verifyPayment
    dsimp only
    by_cases hsig : hmac secret (oid ++ "|" ++ pid) ≠ sig
    · rw [if_pos hsig]
      exact ⟨_, rfl⟩
    · push_neg at hsig
      rw [if_neg fun h => h hsig]
      cases hfp : fetchPayment pid with
      | none => exact ⟨_, rfl⟩
      | some pay =>
        dsimp only
        by_cases hcap : pay.status ≠ "captured"
        · rw [if_pos hcap]
          exact ⟨_, rfl⟩
        · push_neg at hcap
          exact absurd ⟨hsig.symm, pay, hfp, hcap⟩ hnc

/-- Witness for C9: a concrete captured payment of 5000 paise with a
matching signature credits 50 rupees. -/
theorem claim_C9_witness :
    verifyPayment (fun s b => s ++ ":" ++ b) (some "u1") (some "ord") (some "pay")
        (some "sec:ord|pay") (some "sec") (fun _ => some ⟨"captured", 5000⟩)
        ⟨[⟨"w1", "u1", 100⟩], []⟩
      = (.success ((5000 : ℚ) / 100) "pay",
         { wallets := [(⟨"w1", "u1", 100⟩ : Wallet)].map fun w' => if w'.id == "w1" then { w' with balance := (100 : ℚ) + 5000 / 100 } else w',
           txns := ([] : List Txn) ++ [{ userId := "u1", walletId := "w1", ttype := "credit", amount := (5000 : ℚ) / 100, description := some "Wallet top-up via Razorpay", referenceId := some "pay" }] }) :=
  (claim_C9 (fun s b => s ++ ":" ++ b) "u1" "ord" "pay" "sec:ord|pay" "sec"
    (fun _ => some ⟨"captured", 5000⟩) ⟨[⟨"w1", "u1", 100⟩], []⟩ ⟨"w1", "u1", 100⟩
    rfl).1 ⟨"captured", 5000⟩ rfl rfl rfl

/-- C1: across a bet's whole lifetime the win amount is credited
exactly once, never zero times and never twice.  First conjunct — the
scheduler lifecycle: place a bet through the current client (fresh id,
no prior winnings ledger entries, unique bet ids, the user owns a
wallet), then run the cron scheduler any number of times at arbitrary
times with arbitrary drawn stock values; afterwards the ledger holds
exactly one `bet_win` credit for the bet when its row is settled as a
win, and none otherwise.  Second conjunct — the old client lifecycle:
a bet placed (and immediately settled) by the old client carries
exactly one credit when won, zero when lost, and later scheduler runs
never touch it (its `settlement_time` is `NULL`). -/
theorem claim_C1 (st0 : SysState) (uid betId indexName ts : String) (amount : ℚ)
    (bt : BetType) (n : ℤ) (sTime : ℤ) (v : ℚ) (runs : List (ℤ × (String → ℚ)))
    (hfresh : ∀ b ∈ st0.bets, b.id ≠ betId)
    (hnd : (st0.bets.map fun b => b.id).Nodup)
    (hhist : winCredits st0.db betId = 0)
    (hw : (st0.db.wallets.find? fun w => w.userId == uid).isSome = true) :
    (∃ b, betById (runScheduler runs
          (placeBetNew st0 uid betId indexName amount bt n sTime ts)) betId = some b ∧
        winCredits (runScheduler runs
            (placeBetNew st0 uid betId indexName amount bt n sTime ts)).db betId
          = (if b.status = "settled" ∧ b.isWin = true then 1 else 0)) ∧
    (∃ b, betById (runScheduler runs
          (placeBetOld st0 uid betId indexName amount bt n v ts)) betId = some b ∧
        winCredits (runScheduler runs
            (placeBetOld st0 uid betId indexName amount bt n v ts)).db betId
          = (if b.isWin = true then 1 else 0)) := by
  constructor
  · have hInv := Inv_runScheduler runs betId uid (some sTime) _
      (Inv_placeBetNew st0 uid betId indexName ts amount bt n sTime hfresh hnd hhist hw)
    obtain ⟨⟨b, hb, _, hbs, hcred⟩, _, _⟩ := hInv
    refine ⟨b, hb, ?_⟩
    rw [hcred]
    unfold expectedCredits
    by_cases hs : b.status = "settled" <;> by_cases hiw : b.isWin = true <;>
      simp [hs, hiw, hbs]
  · have hInv := Inv_runScheduler runs betId uid none _
      (Inv_placeBetOld st0 uid betId indexName ts amount bt n v hfresh hnd hhist hw)
    obtain ⟨⟨b, hb, _, hbs, hcred⟩, _, _⟩ := hInv
    refine ⟨b, hb, ?_⟩
    rw [hcred]
    unfold expectedCredits
    by_cases hiw : b.isWin = true <;> simp [hiw, hbs]

/-- Witness for C1: a concrete lifecycle — one user with a wallet, one
bet placed in the empty system, one scheduler run after the settlement
time. -/
theorem claim_C1_witness :
    (∃ b, betById (runScheduler [((10 : ℤ), fun _ => (100 : ℚ))]
          (placeBetNew ⟨[], ⟨[⟨"w1", "u1", 1000⟩], []⟩⟩ "u1" "b1" "Taiwan" 100 .andar 0 5 "t0")) "b1" = some b ∧
        winCredits (runScheduler [((10 : ℤ), fun _ => (100 : ℚ))]
            (placeBetNew ⟨[], ⟨[⟨"w1", "u1", 1000⟩], []⟩⟩ "u1" "b1" "Taiwan" 100 .andar 0 5 "t0")).db "b1"
          = (if b.status = "settled" ∧ b.isWin = true then 1 else 0)) ∧
    (∃ b, betById (runScheduler [((10 : ℤ), fun _ => (100 : ℚ))]
          (placeBetOld ⟨[], ⟨[⟨"w1", "u1", 1000⟩], []⟩⟩ "u1" "b1" "Taiwan" 100 .andar 0 100.25 "t0")) "b1" = some b ∧
        winCredits (runScheduler [((10 : ℤ), fun _ => (100 : ℚ))]
            (placeBetOld ⟨[], ⟨[⟨"w1", "u1", 1000⟩], []⟩⟩ "u1" "b1" "Taiwan" 100 .andar 0 100.25 "t0")).db "b1"
          = (if b.isWin = true then 1 else 0)) :=
  claim_C1 ⟨[], ⟨[⟨"w1", "u1", 1000⟩], []⟩⟩ "u1" "b1" "Taiwan" "t0" 100 .andar 0 5 100.25
    [((10 : ℤ), fun _ => (100 : ℚ))] (by simp) (by simp) rfl rfl

end IDW
